import Mathlib

/-
Verification of the signal-tui core against its specification.

The development shallowly embeds the Rust sources:
  src/scrollback.rs  - append-only per-conversation scrollback store
  src/signal_cli.rs  - protocol adapter over the external signal-cli tool
  src/main.rs        - session state machine (targets, unread, buffers)

JSON values are modeled at the level of parsed serde_json values; the
text-level JSON parser is an external library and appears as an explicit
function parameter where the code depends on it.  Machine integers that the
program reads (i64 timestamps) are modeled as Int; byte lengths of strings
are computed from UTF-8 character sizes.
-/

set_option maxHeartbeats 1000000
set_option maxRecDepth 40000

/-- Model of a serde_json Value restricted to what the program consumes.
Numbers are modeled as integers because the program only ever reads i64
fields from them. -/
inductive Json where
  | null
  | bool (b : Bool)
  | num (n : Int)
  | str (s : String)
  | arr (items : List Json)
  | obj (fields : List (String × Json))

/-- First-match field lookup in a JSON object, as serde_json Map get. -/
def jlookup : List (String × Json) → String → Option Json
  | [], _ => none
  | (k2, v) :: rest, k => if k2 = k then some v else jlookup rest k

/-- Value.get with a string key: object field lookup, none on any other shape. -/
def Json.getF : Json → String → Option Json
  | .obj fs, k => jlookup fs k
  | _, _ => none

/-- Value.as_str. -/
def fieldStr : Json → Option String
  | .str s => some s
  | _ => none

/-- Value.as_i64 (the program only feeds integer timestamps through this). -/
def Json.asInt? : Json → Option Int
  | .num n => some n
  | _ => none

/-- Value.as_object. -/
def Json.asObj? : Json → Option (List (String × Json))
  | .obj fs => some fs
  | _ => none

/-- ScrollbackRecord from src/scrollback.rs. -/
structure ScrollbackRecord where
  ts_ms : Option Int
  dir : String
  who : Option String
  body : String
deriving DecidableEq

/-- Serialization of a ScrollbackRecord by the serde derive: a JSON object
with the four fields, Option fields rendered as null when absent. -/
def recToJson (r : ScrollbackRecord) : Json :=
  .obj [("ts_ms", match r.ts_ms with | none => .null | some n => .num n),
        ("dir", .str r.dir),
        ("who", match r.who with | none => .null | some s => .str s),
        ("body", .str r.body)]

/-- Field decoding for an Option int field: missing is handled by the caller,
null decodes to none, an integer to some, anything else is a parse failure. -/
def fieldOptInt : Json → Option (Option Int)
  | .null => some none
  | .num n => some (some n)
  | _ => none

/-- Field decoding for an Option string field. -/
def fieldOptStr : Json → Option (Option String)
  | .null => some none
  | .str s => some (some s)
  | _ => none

/-- Deserialization of a ScrollbackRecord by the serde derive: the value must
be an object, dir and body must be strings, the Option fields tolerate a
missing or null field. -/
def recFromJson : Json → Option ScrollbackRecord
  | .obj fs => do
    let ts ← match jlookup fs "ts_ms" with
      | none => some none
      | some v => fieldOptInt v
    let dir ← (jlookup fs "dir").bind fieldStr
    let who ← match jlookup fs "who" with
      | none => some none
      | some v => fieldOptStr v
    let body ← (jlookup fs "body").bind fieldStr
    pure { ts_ms := ts, dir := dir, who := who, body := body }
  | _ => none

/-- One line of a scrollback file.  The running program only ever writes JSON
lines; a file read back may also contain blank lines or lines that are not
valid JSON at all (modeled as garbage).  A line that is valid JSON text is
represented by its parsed value; the text rendering is abstracted away. -/
inductive ScrollLine where
  | blank
  | garbage
  | json (j : Json)

/-- Parsing of one file line inside load_tail: blank lines are skipped before
parsing, garbage fails serde parsing, JSON lines go through the record
deserializer. -/
def parseLine : ScrollLine → Option ScrollbackRecord
  | .blank => none
  | .garbage => none
  | .json j => recFromJson j

/-- scrollback::append restricted to one conversation file: serialize the
record as one JSON line and add it at the end of the file. -/
def append (file : List ScrollLine) (rec : ScrollbackRecord) : List ScrollLine :=
  file ++ [.json (recToJson rec)]

/-- scrollback::load_tail on one conversation file: collect the records of
the lines that parse, in file order, then drain the front so that at most
limit records remain.  A missing file is the empty line list. -/
def load_tail (file : List ScrollLine) (limit : Nat) : List ScrollbackRecord :=
  let buf := file.foldl (fun buf l =>
    match parseLine l with
    | some v => buf ++ [v]
    | none => buf) []
  if buf.length > limit then buf.drop (buf.length - limit) else buf

/-- A fresh file after a sequence of appends. -/
def appendAll (rs : List ScrollbackRecord) : List ScrollLine :=
  rs.foldl append []

/-- A file whose lines interleave junk runs with valid record lines: each
segment is a run of junk lines followed by one serialized record, and the
file ends with a trailing run of junk lines. -/
def mkSegs : List (List ScrollLine × ScrollbackRecord) → List ScrollLine
  | [] => []
  | s :: rest => s.1 ++ (ScrollLine.json (recToJson s.2) :: mkSegs rest)

def mkInterleaved (segs : List (List ScrollLine × ScrollbackRecord))
    (trailing : List ScrollLine) : List ScrollLine :=
  mkSegs segs ++ trailing

/-- Concrete records for the claim C4 witness. -/
def c4rec1 : ScrollbackRecord := { ts_ms := some 1000, dir := "in", who := some "+15551230000", body := "a" }

def c4rec2 : ScrollbackRecord := { ts_ms := none, dir := "out", who := none, body := "b" }

/-- IncomingMessage from src/signal_cli.rs. -/
structure IncomingMessage where
  conversation_key : String
  source : Option String
  timestamp_ms : Option Int
  body : String
deriving DecidableEq

/-- Lazy or_else on options, as in the defensive extraction chains. -/
def orE {α : Type} (a b : Option α) : Option α :=
  match a with
  | some x => some x
  | none => b

/-- The envelope sub-object of a receive item, Null when absent. -/
def envOf (obj : List (String × Json)) : Json :=
  (jlookup obj "envelope").getD .null

/-- Timestamp extraction: envelope.timestamp, else the top-level timestamp. -/
def tsOf (obj : List (String × Json)) : Option Int :=
  orE ((envOf obj).asObj?.bind fun e => (jlookup e "timestamp").bind Json.asInt?)
    ((jlookup obj "timestamp").bind Json.asInt?)

/-- Sender extraction: envelope.sourceNumber, else envelope.source. -/
def srcOf (obj : List (String × Json)) : Option String :=
  (envOf obj).asObj?.bind fun e =>
    orE ((jlookup e "sourceNumber").bind fieldStr) ((jlookup e "source").bind fieldStr)

/-- The dataMessage object: under the envelope if reachable there, else at
the top level, Null when absent in both places. -/
def dataMsgOf (obj : List (String × Json)) : Json :=
  (orE ((envOf obj).asObj?.bind fun e => jlookup e "dataMessage")
    (jlookup obj "dataMessage")).getD .null

/-- Body extraction: dataMessage.message as a string, empty when absent. -/
def bodyOf (obj : List (String × Json)) : String :=
  (((dataMsgOf obj).getF "message").bind fieldStr).getD ""

/-- Group id extraction: dataMessage.groupInfo.groupId, tolerating the
alternate field name group_id. -/
def groupIdOf (obj : List (String × Json)) : Option String :=
  orE (((dataMsgOf obj).getF "groupInfo").bind fun g => (g.getF "groupId").bind fieldStr)
    (((dataMsgOf obj).getF "groupInfo").bind fun g => (g.getF "group_id").bind fieldStr)

/-- Conversation-key derivation with group information taking precedence over
the sender, and a fixed sentinel bucket when neither is present. -/
def keyOf (obj : List (String × Json)) : String :=
  match groupIdOf obj with
  | some gid => "group:" ++ gid
  | none =>
    match srcOf obj with
    | some src => "contact:" ++ src
    | none => "unknown:unknown"

/-- The per-item body of parse_receive_json: non-objects are skipped, items
whose extracted body is empty are skipped, the rest become messages. -/
def parseItem (item : Json) : Option IncomingMessage :=
  match item.asObj? with
  | none => none
  | some obj =>
    if bodyOf obj = "" then none
    else some { conversation_key := keyOf obj, source := srcOf obj,
                timestamp_ms := tsOf obj, body := bodyOf obj }

/-- parse_receive_json from src/signal_cli.rs: an array yields its elements
as items, any other value is the sole item. -/
def parse_receive_json (v : Json) : List IncomingMessage :=
  (match v with
   | .arr a => a
   | other => [other]).filterMap parseItem

/-- Fields of the example item of the claim: an envelope with a timestamp, a
sender number and a dataMessage carrying both a body and group info. -/
def c3fields : List (String × Json) :=
  [("envelope", .obj
    [("timestamp", .num 1000),
     ("sourceNumber", .str "+15551230000"),
     ("dataMessage", .obj
       [("message", .str "hi"),
        ("groupInfo", .obj [("groupId", .str "G1")])])])]

def c3item : Json := .obj c3fields

/-- The message the example item must normalize to. -/
def c3msg : IncomingMessage :=
  { conversation_key := "group:G1", source := some "+15551230000",
    timestamp_ms := some 1000, body := "hi" }

/-- A degenerate text-level parser for the claim C9 witness: it accepts
nothing, so both the whole-text pass and the per-line pass fail. -/
def c9parse : List Char → Option Json := fun _ => none

/-- Rust char::is_whitespace restricted to the ASCII whitespace the protocol
text can contain. -/
def rustTrim (s : List Char) : List Char :=
  ((s.dropWhile Char.isWhitespace).reverse.dropWhile Char.isWhitespace).reverse

/-- Split at newline characters, keeping a (possibly empty) final part. -/
def splitNl : List Char → List (List Char)
  | [] => [[]]
  | c :: cs =>
    if c = '\n' then [] :: splitNl cs
    else
      match splitNl cs with
      | [] => [[c]]
      | l :: ls => (c :: l) :: ls

/-- Rust str::lines: split at newlines, drop an empty final part produced by
a trailing newline, strip one trailing carriage return per line. -/
def rustLines (s : List Char) : List (List Char) :=
  let parts := splitNl s
  let parts := if parts.getLast? = some [] then parts.dropLast else parts
  parts.map fun l => if l.getLast? = some '\r' then l.dropLast else l

/-- The non-empty trimmed lines that the per-line fallback parses. -/
def jsonLinesOf (s : List Char) : List (List Char) :=
  ((rustLines s).map rustTrim).filter fun l => !l.isEmpty

/-- The per-line fallback loop of run_json: parse each line, failing the
whole call at the first line that does not parse. -/
def parseAllLines (parse : List Char → Option Json) : List (List Char) → Except String (List Json)
  | [] => .ok []
  | l :: ls =>
    match parse l with
    | none => .error ("failed to parse JSON line from signal-cli: " ++ String.mk l)
    | some v =>
      match parseAllLines parse ls with
      | .ok items => .ok (v :: items)
      | .error e => .error e

def isErrB {ε α : Type} : Except ε α → Bool
  | .error _ => true
  | .ok _ => false

/-- run_json from src/signal_cli.rs after a successful process invocation,
with the text-level JSON parser supplied as a parameter: trim the captured
stdout, return nothing on empty output, prefer parsing the whole text as one
JSON value, and otherwise parse it line by line, propagating a failure of
any line as an error for the whole call. -/
def run_json (parse : List Char → Option Json) (stdout : List Char) :
    Except String (Option Json) :=
  let s := rustTrim stdout
  if s = [] then .ok none
  else
    match parse s with
    | some v => .ok (some v)
    | none =>
      match parseAllLines parse (jsonLinesOf s) with
      | .ok items => .ok (some (.arr items))
      | .error e => .error e

/-- Interaction modes from src/main.rs (Insert is the composing mode). -/
inductive Mode where
  | normal
  | insert
  | addRecipient
deriving DecidableEq

inductive TargetKind where
  | contact
  | group
deriving DecidableEq

/-- Target from src/main.rs: for contacts addr is the E.164 number, for
groups the group id. -/
structure Target where
  conversation_key : String
  kind : TargetKind
  addr : String
  display : String
deriving DecidableEq

/-- Message direction (constructor names adjusted: in is a keyword). -/
inductive MsgDir where
  | inb
  | out
deriving DecidableEq

structure ChatMessage where
  ts_ms : Option Int
  dir : MsgDir
  who : Option String
  body : String
deriving DecidableEq

/-- The resolved configuration values the session consumes. -/
structure Config where
  scrollback_load_limit : Nat
  save_scrollback : Bool
  notify : Bool

/-- One requested desktop notification: conversation display name, sender
name and the truncated body line handed to the external notifier. -/
structure NotifyReq where
  chat : String
  sender : String
  msg : String
deriving DecidableEq

/-- App from src/main.rs.  unread, messages and store are total maps with
empty defaults: a conversation key absent from the Rust HashMap is a key
mapped to 0 or to the empty list here (unread values in the running program
are always at least 1, so absence and 0 coincide).  store models the
scrollback directory, keyed by conversation key; the hex file naming is
injective, so distinct keys are distinct files.  notified accumulates the
notification requests handed to the external notifier. -/
structure App where
  account : String
  cfg : Config
  notify_send : Bool
  mode : Mode
  targets : List Target
  selected : Nat
  pending_g : Bool
  unread : String → Nat
  title_dirty : Bool
  input : String
  status : String
  messages : String → List ChatMessage
  store : String → List ScrollLine
  notified : List NotifyReq

def App.selectedTarget (app : App) : Option Target :=
  app.targets.get? app.selected

/-- Key events, restricted to what the handlers inspect. -/
inductive KeyCode where
  | esc
  | enter
  | backspace
  | char (c : Char)
  | down
  | up
  | other
deriving DecidableEq

structure KeyEvent where
  code : KeyCode
  ctrl : Bool
  alt : Bool
deriving DecidableEq

def keyEnter : KeyEvent := { code := .enter, ctrl := false, alt := false }

/-- Rust str::trim on a Lean string. -/
def trimStr (s : String) : String := String.mk (rustTrim s.data)

/-- Rust String::pop. -/
def strPop (s : String) : String := String.mk s.data.dropLast

/-- Rust str::starts_with on the plus sign. -/
def headPlus (s : String) : Bool :=
  match s.data with
  | [] => false
  | c :: _ => c = '+'

/-- Rust String::len, the UTF-8 byte length. -/
def utf8Len (s : List Char) : Nat := (s.map fun c => c.utf8Size).sum

/-- Byte-indexed truncation boundary: take characters until exactly n bytes
are consumed; none when byte n falls inside a character, which makes
Rust String::truncate panic. -/
def takeBytes : List Char → Nat → Option (List Char)
  | _, 0 => some []
  | [], _ + 1 => none
  | c :: cs, n + 1 =>
    if c.utf8Size ≤ n + 1 then (takeBytes cs (n + 1 - c.utf8Size)).map fun l => c :: l
    else none

/-- The notification body computation of notify_incoming: if the body is
longer than 200 bytes, truncate at byte 200 and add an ellipsis; the result
is none when the truncation hits a non-boundary byte (a panic in the Rust
code). -/
def notifyTrunc (s : List Char) : Option (List Char) :=
  if utf8Len s > 200 then (takeBytes s 200).map fun l => l ++ ['.', '.', '.']
  else some s

/-- notify_incoming from src/main.rs: resolve the display name of the
conversation, fall back to the sender name unknown, truncate the body, and
record the request for the external notifier; none models the truncation
panic aborting the process. -/
def notify_incoming (app : App) (key : String) (source : Option String) (body : String) :
    Option App :=
  let chat := ((app.targets.find? fun t => t.conversation_key == key).map fun t => t.display).getD key
  let sender := source.getD "unknown"
  (notifyTrunc body.data).map fun msg =>
    { app with notified := app.notified ++ [{ chat := chat, sender := sender, msg := String.mk msg }] }

/-- Drop an expected opening run from a character list, as str::strip on a
fixed marker: some of the remainder exactly when the marker matches. -/
def dropStartL : List Char → List Char → Option (List Char)
  | [], s => some s
  | _ :: _, [] => none
  | p :: ps, c :: cs => if c = p then dropStartL ps cs else none

def dropStart (pre s : String) : Option String :=
  (dropStartL pre.data s.data).map String.mk

/-- Namespace split of a conversation key as in ingest_incoming: group keys
give a group target, contact keys a contact target, anything else (the
sentinel bucket) is skipped by the caller. -/
def parseKeyNs (key : String) : Option (TargetKind × String × String) :=
  match dropStart "group:" key with
  | some rest => some (.group, rest, "group " ++ rest)
  | none =>
    match dropStart "contact:" key with
    | some rest => some (.contact, rest, rest)
    | none => none

/-- Case-insensitive display comparison: lexicographic order of the
ASCII-lowercased character sequences (UTF-8 byte order and code point order
agree). -/
def lexLe : List Char → List Char → Bool
  | [], _ => true
  | _ :: _, [] => false
  | a :: xs, b :: ys => if a < b then true else if b < a then false else lexLe xs ys

def strLeCI (a b : String) : Bool :=
  lexLe (a.data.map Char.toLower) (b.data.map Char.toLower)

def targetLe (a b : Target) : Bool := strLeCI a.display b.display

/-- Stable insertion into a sorted run. -/
def ordInsert {α : Type} (le : α → α → Bool) (a : α) : List α → List α
  | [] => [a]
  | b :: l => if le a b then a :: b :: l else b :: ordInsert le a l

/-- Stable sort; for the total preorder used on targets this computes the
same list as the stable sort_by of the Rust code. -/
def insSort {α : Type} (le : α → α → Bool) : List α → List α
  | [] => []
  | a :: l => ordInsert le a (insSort le l)

/-- Iterator::position. -/
def position {α : Type} (p : α → Bool) : List α → Option Nat
  | [] => none
  | a :: l => if p a then some 0 else (position p l).map fun i => i + 1

/-- mark_selected_read from src/main.rs: remove the unread entry of the
selected conversation, marking the title dirty when one was present. -/
def mark_selected_read (app : App) : App :=
  match app.targets.get? app.selected with
  | some t =>
    { app with
      unread := fun k => if k = t.conversation_key then 0 else app.unread k,
      title_dirty := app.title_dirty || (app.unread t.conversation_key != 0) }
  | none => app

/-- The j and Down arm of handle_key_normal: move the selection down,
clamped, then mark the newly selected conversation read. -/
def navDown (app : App) : App :=
  let app := { app with pending_g := false }
  if app.targets.isEmpty then app
  else mark_selected_read { app with selected := min (app.selected + 1) (app.targets.length - 1) }

/-- The k and Up arm of handle_key_normal. -/
def navUp (app : App) : App :=
  let app := { app with pending_g := false }
  if app.targets.isEmpty then app
  else mark_selected_read { app with selected := app.selected - 1 }

/-- The scrollback append on the store map, shared by the send path and the
ingest path (both call scrollback::append). -/
def appendStore (app : App) (key : String) (rec : ScrollbackRecord) : App :=
  { app with store := fun k =>
      if k = key then app.store key ++ [ScrollLine.json (recToJson rec)] else app.store k }

/-- The message buffer push shared by the send path and the ingest path. -/
def pushMessage (app : App) (key : String) (m : ChatMessage) : App :=
  { app with messages := fun k =>
      if k = key then app.messages key ++ [m] else app.messages k }

/-- The succeeded-send arm of handle_key_insert: append the outbound record
to scrollback when persistence is on, push the outbound message into the
buffer of the selected conversation, report sent and leave insert mode. -/
def sendOkUpdate (app : App) (t : Target) (body : String) : App :=
  let app1 :=
    if app.cfg.save_scrollback then
      appendStore app t.conversation_key
        { ts_ms := none, dir := "out", who := some app.account, body := body }
    else app
  { pushMessage app1 t.conversation_key
      { ts_ms := none, dir := .out, who := some app.account, body := body } with
    status := "sent", input := "", mode := .normal }

/-- handle_key_insert from src/main.rs.  The external send call is not
performed here; its result arrives as the sendRes parameter, consulted
exactly where the code makes the call (a non-empty body and a selected
target). -/
def handle_key_insert (app : App) (k : KeyEvent) (sendRes : Except String Unit) : App :=
  match k.code with
  | .esc => { app with mode := .normal, input := "" }
  | .enter =>
    if trimStr app.input = "" then { app with status := "empty message; nothing sent" }
    else
      match app.targets.get? app.selected with
      | none => { app with status := "no target selected" }
      | some t =>
        match sendRes with
        | .ok _ => sendOkUpdate app t (trimStr app.input)
        | .error e => { app with status := "send error: " ++ e }
  | .backspace => { app with input := strPop app.input }
  | .char c =>
    if !k.ctrl && !k.alt then { app with input := app.input.push c } else app
  | _ => app

/-- The contact target synthesized for an accepted address. -/
def newContact (num : String) : Target :=
  { conversation_key := "contact:" ++ num, kind := .contact, addr := num, display := num }

/-- The selection step of the accepted-address arm: select the position of
the first target whose address equals the entered number, if any. -/
def selectByAddr (app1 : App) (num : String) : App :=
  match position (fun t => t.addr == num) app1.targets with
  | some i => { app1 with selected := i }
  | none => app1

/-- The accepted-address arm of handle_key_add_recipient: insert a contact
target when the key is new, re-sorting the list, select the first target
whose address equals the entered number, mark it read and return to normal
mode. -/
def addRecipientAccept (app : App) (num : String) : App :=
  let app1 :=
    if app.targets.any (fun t => t.conversation_key == "contact:" ++ num) then app
    else { app with targets := insSort targetLe (app.targets ++ [newContact num]) }
  { mark_selected_read (selectByAddr app1 num) with
    mode := .normal, input := "", status := "recipient added (press i to message)" }

/-- handle_key_add_recipient from src/main.rs (status texts abridged of
quote characters). -/
def handle_key_add_recipient (app : App) (k : KeyEvent) : App :=
  match k.code with
  | .esc => { app with mode := .normal, input := "", status := "cancelled" }
  | .enter =>
    if !headPlus (trimStr app.input) || utf8Len (trimStr app.input).data < 8 then
      { app with status := "recipient must look like +15551234567" }
    else addRecipientAccept app (trimStr app.input)
  | .backspace => { app with input := strPop app.input }
  | .char c =>
    if !k.ctrl && !k.alt then { app with input := app.input.push c } else app
  | _ => app

/-- The unread bump of ingest_incoming. -/
def bumpUnread (app : App) (key : String) : App :=
  { app with unread := fun k => if k = key then app.unread key + 1 else app.unread k }

/-- The part of the ingest loop body that runs after the target lookup
phase: bump unread when not selected, append to scrollback when persistence
is on, request a notification when enabled (none models the truncation
panic), push into the in-memory buffer.  selKey is the selected conversation
key captured once before the batch loop, exactly as in the code. -/
def processRest (selKey : Option String) (app : App) (m : IncomingMessage) : Option App :=
  let app := if selKey ≠ some m.conversation_key then bumpUnread app m.conversation_key else app
  let app :=
    if app.cfg.save_scrollback then
      appendStore app m.conversation_key
        { ts_ms := m.timestamp_ms, dir := "in", who := m.source, body := m.body }
    else app
  let next := if app.notify_send then notify_incoming app m.conversation_key m.source m.body
    else some app
  next.map fun a => pushMessage a m.conversation_key
    { ts_ms := m.timestamp_ms, dir := .inb, who := m.source, body := m.body }

/-- One iteration of the ingest loop: insert an on-the-fly target when the
key is unknown and namespaced, skip the message entirely when the key is
unknown and not namespaced, then run the rest of the loop body. -/
def ingestOne (selKey : Option String) (app : App) (m : IncomingMessage) : Option App :=
  if app.targets.any (fun t => t.conversation_key == m.conversation_key) then
    processRest selKey app m
  else
    match parseKeyNs m.conversation_key with
    | none => some app
    | some info =>
      processRest selKey
        { app with targets := app.targets ++
            [{ conversation_key := m.conversation_key, kind := info.1,
               addr := info.2.1, display := info.2.2 }] } m

def ingestLoop (selKey : Option String) : App → List IncomingMessage → Option App
  | app, [] => some app
  | app, m :: rest =>
    match ingestOne selKey app m with
    | none => none
    | some a => ingestLoop selKey a rest

/-- The after-batch phase of ingest_incoming: re-sort the target list by
case-insensitive display name and clamp the selection index. -/
def finalizeIngest (app : App) : App :=
  let app := { app with targets := insSort targetLe app.targets }
  if app.selected ≥ app.targets.length ∧ app.targets.length ≠ 0 then
    { app with selected := app.targets.length - 1 }
  else app

/-- ingest_incoming from src/main.rs. -/
def ingest_incoming (app : App) (msgs : List IncomingMessage) : Option App :=
  (ingestLoop (app.selectedTarget.map fun t => t.conversation_key) app msgs).map finalizeIngest

/-- A base application state for concrete witnesses. -/
def app0 : App :=
  { account := "+19990000000",
    cfg := { scrollback_load_limit := 500, save_scrollback := true, notify := true },
    notify_send := false, mode := .normal, targets := [], selected := 0,
    pending_g := false, unread := fun _ => 0, title_dirty := false,
    input := "", status := "", messages := fun _ => [], store := fun _ => [],
    notified := [] }

def c1target : Target :=
  { conversation_key := "contact:+15551234567", kind := .contact,
    addr := "+15551234567", display := "bob" }

def c1app : App := { app0 with targets := [c1target], mode := .insert, input := " hi " }

def c6app : App :=
  { app0 with
    targets := [c1target],
    unread := fun k => if k = "contact:+15551234567" then 3 else 0 }

def c10target : Target :=
  { conversation_key := "contact:+15551234567", kind := .contact,
    addr := "+15551234567", display := "alice" }

def c10app : App := { app0 with targets := [c10target] }

def c10msg : IncomingMessage :=
  { conversation_key := "unknown:unknown", source := none, timestamp_ms := none, body := "hi" }

/-- A batch message for the sentinel conversation key, as the adapter
produces for an item with neither group info nor a sender. -/
def c5xmsg : IncomingMessage :=
  { conversation_key := "unknown:unknown", source := none, timestamp_ms := none, body := "hi" }

/-- A batch message for a fresh contact conversation key. -/
def c5wmsg : IncomingMessage :=
  { conversation_key := "contact:+15551230000", source := some "+15551230000",
    timestamp_ms := some 1, body := "hi" }

/-- The state after ingesting a batch of three messages for the fresh key. -/
def c5res : App := (ingest_incoming app0 [c5wmsg, c5wmsg, c5wmsg]).getD app0

/-- A group target whose group id happens to equal an E.164 number and whose
display name sorts before the number. -/
def c7grp : Target :=
  { conversation_key := "group:+15551234567", kind := .group,
    addr := "+15551234567", display := "!grp" }

def c7app : App := { app0 with targets := [c7grp], mode := .addRecipient, input := "+15551234567" }

def c7wapp : App := { app0 with mode := .addRecipient, input := "+15551234567" }

def c7rapp : App := { app0 with mode := .addRecipient, input := "5551234567" }

-- ===================== theorems =====================

theorem recRoundtrip (r : ScrollbackRecord) : recFromJson (recToJson r) = some r := by
  cases r with
  | mk ts dir who body => cases ts <;> cases who <;> rfl

theorem loadBuf_eq (file : List ScrollLine) (acc : List ScrollbackRecord) :
    file.foldl (fun buf l =>
      match parseLine l with
      | some v => buf ++ [v]
      | none => buf) acc = acc ++ file.filterMap parseLine := by
  induction file generalizing acc with
  | nil => simp
  | cons l file ih =>
    cases h : parseLine l with
    | none => simp [List.foldl_cons, h, ih, List.filterMap_cons]
    | some v => simp [List.foldl_cons, h, ih, List.filterMap_cons]

theorem load_tail_eq (file : List ScrollLine) (limit : Nat) (rs : List ScrollbackRecord)
    (h : file.filterMap parseLine = rs) :
    load_tail file limit = rs.drop (rs.length - limit) := by
  unfold load_tail
  rw [loadBuf_eq, List.nil_append, h]
  by_cases hl : rs.length > limit
  · simp [hl]
  · have hz : rs.length - limit = 0 := Nat.sub_eq_zero_of_le (Nat.le_of_not_lt hl)
    simp [hl, hz]

theorem appendAll_eq (rs : List ScrollbackRecord) :
    appendAll rs = rs.map (fun r => ScrollLine.json (recToJson r)) := by
  suffices h : ∀ acc, rs.foldl append acc = acc ++ rs.map (fun r => ScrollLine.json (recToJson r)) by
    simpa [appendAll] using h []
  induction rs with
  | nil => intro acc; simp
  | cons r rs ih => intro acc; simp [List.foldl_cons, append, ih, List.append_assoc]

theorem filterMap_encoded (rs : List ScrollbackRecord) :
    (rs.map (fun r => ScrollLine.json (recToJson r))).filterMap parseLine = rs := by
  induction rs with
  | nil => rfl
  | cons r rs ih => simp [List.filterMap_cons, parseLine, recRoundtrip, ih]

/-- Claim C2: for every sequence of records written via append to one
conversation file and every limit N, load_tail with limit N returns exactly
the last min(N, count) records, in the original write order (the oldest
records are the ones dropped when the count exceeds N). -/
theorem c2_append_load_tail (rs : List ScrollbackRecord) (limit : Nat) :
    load_tail (appendAll rs) limit = rs.drop (rs.length - limit) ∧
    (load_tail (appendAll rs) limit).length = min limit rs.length := by
  have h1 : load_tail (appendAll rs) limit = rs.drop (rs.length - limit) :=
    load_tail_eq _ _ _ (by rw [appendAll_eq, filterMap_encoded])
  refine ⟨h1, ?_⟩
  rw [h1, List.length_drop]
  omega

theorem filterMap_junk (ls : List ScrollLine) (h : ∀ l ∈ ls, parseLine l = none) :
    ls.filterMap parseLine = [] := by
  induction ls with
  | nil => rfl
  | cons l ls ih =>
    rw [List.filterMap_cons, h l (List.mem_cons_self l ls)]
    exact ih fun x hx => h x (List.mem_cons_of_mem l hx)

theorem filterMap_mkSegs (segs : List (List ScrollLine × ScrollbackRecord))
    (h : ∀ s ∈ segs, ∀ l ∈ s.1, parseLine l = none) :
    (mkSegs segs).filterMap parseLine = segs.map Prod.snd := by
  induction segs with
  | nil => rfl
  | cons s rest ih =>
    rw [mkSegs, List.filterMap_append,
      filterMap_junk s.1 (h s (List.mem_cons_self s rest)), List.filterMap_cons]
    simp only [parseLine, recRoundtrip, List.nil_append, List.map_cons]
    rw [ih fun x hx => h x (List.mem_cons_of_mem s hx)]

/-- Claim C4: on a file interleaving valid record lines with blank lines and
lines that fail to parse, load_tail returns exactly the valid records in
their relative file order, skipping every invalid or blank line and never
failing; the tail trim to the configured limit is the only other effect. -/
theorem c4_load_tail_skips_invalid (segs : List (List ScrollLine × ScrollbackRecord))
    (trailing : List ScrollLine) (limit : Nat)
    (hsegs : ∀ s ∈ segs, ∀ l ∈ s.1, parseLine l = none)
    (htrail : ∀ l ∈ trailing, parseLine l = none) :
    load_tail (mkInterleaved segs trailing) limit =
      (segs.map Prod.snd).drop (segs.length - limit) ∧
    (segs.length ≤ limit →
      load_tail (mkInterleaved segs trailing) limit = segs.map Prod.snd) := by
  have hfm : (mkInterleaved segs trailing).filterMap parseLine = segs.map Prod.snd := by
    rw [mkInterleaved, List.filterMap_append, filterMap_mkSegs segs hsegs,
      filterMap_junk trailing htrail, List.append_nil]
  have h1 : load_tail (mkInterleaved segs trailing) limit =
      (segs.map Prod.snd).drop ((segs.map Prod.snd).length - limit) :=
    load_tail_eq _ _ _ hfm
  rw [List.length_map] at h1
  refine ⟨h1, fun hle => ?_⟩
  rw [h1, Nat.sub_eq_zero_of_le hle, List.drop_zero]

/-- Witness for claim C4: a concrete file with a blank line, two garbage
lines inside and one after the records loads exactly the two records. -/
theorem c4_witness :
    parseLine ScrollLine.blank = none ∧ parseLine ScrollLine.garbage = none ∧
    load_tail (mkInterleaved [([ScrollLine.blank, ScrollLine.garbage], c4rec1),
        ([ScrollLine.garbage], c4rec2)] [ScrollLine.blank]) 5 = [c4rec1, c4rec2] := by
  refine ⟨rfl, rfl, ?_⟩
  have h := (c4_load_tail_skips_invalid
    [([ScrollLine.blank, ScrollLine.garbage], c4rec1), ([ScrollLine.garbage], c4rec2)]
    [ScrollLine.blank] 5
    (by intro s hs l hl; fin_cases hs <;> fin_cases hl <;> rfl)
    (by intro l hl; fin_cases hl; rfl)).2 (by decide)
  simpa using h

/-- Claim C3: for every item the protocol adapter turns into a message, the
conversation key is derived with group information taking precedence over the
sender: a group id yields group:<id>, else a sender yields contact:<address>,
else the fixed sentinel bucket; and the example envelope with sourceNumber
+15551230000 and dataMessage.groupInfo.groupId G1 yields the single message
with conversation key group:G1. -/
theorem c3_conversation_key_precedence (item : Json) (obj : List (String × Json))
    (m : IncomingMessage)
    (hobj : item.asObj? = some obj) (hm : parseItem item = some m) :
    (m.conversation_key =
      match groupIdOf obj with
      | some gid => "group:" ++ gid
      | none =>
        match srcOf obj with
        | some src => "contact:" ++ src
        | none => "unknown:unknown") ∧
    parse_receive_json c3item = [c3msg] := by
  constructor
  · rw [parseItem, hobj] at hm
    by_cases hb : bodyOf obj = ""
    · simp [hb] at hm
    · simp only [hb, if_false, Option.some.injEq] at hm
      rw [← hm]
      rfl
  · rfl

/-- Witness for claim C3: the hypotheses of the precedence theorem hold at
the example item, and its key evaluates to group:G1. -/
theorem c3_witness :
    Json.asObj? c3item = some c3fields ∧ parseItem c3item = some c3msg ∧
    c3msg.conversation_key =
      (match groupIdOf c3fields with
       | some gid => "group:" ++ gid
       | none =>
         match srcOf c3fields with
         | some src => "contact:" ++ src
         | none => "unknown:unknown") :=
  ⟨rfl, rfl, (c3_conversation_key_precedence c3item c3fields c3msg rfl rfl).1⟩

theorem parseAllLines_error (parse : List Char → Option Json) (ls : List (List Char))
    (l : List Char) (hl : l ∈ ls) (hp : parse l = none) :
    isErrB (parseAllLines parse ls) = true := by
  induction ls with
  | nil => cases hl
  | cons a rest ih =>
    rcases List.mem_cons.mp hl with rfl | hmem
    · simp [parseAllLines, hp, isErrB]
    · cases ha : parse a with
      | none => simp [parseAllLines, ha, isErrB]
      | some v =>
        have hrec := ih hmem
        cases hpa : parseAllLines parse rest with
        | ok items => rw [hpa] at hrec; simp [isErrB] at hrec
        | error e => simp [parseAllLines, ha, hpa, isErrB]

/-- Claim C9: when the whole receive output fails to parse as one JSON value
and any of its non-empty trimmed lines also fails to parse, the whole receive
call returns an error; the failure is propagated, never a partial result. -/
theorem c9_line_parse_failure_propagates (parse : List Char → Option Json)
    (stdout : List Char) (l : List Char)
    (hwhole : parse (rustTrim stdout) = none)
    (hmem : l ∈ jsonLinesOf (rustTrim stdout))
    (hline : parse l = none) :
    isErrB (run_json parse stdout) = true := by
  by_cases hs : rustTrim stdout = []
  · rw [hs] at hmem
    have h0 : jsonLinesOf [] = [] := rfl
    rw [h0] at hmem
    cases hmem
  · have herr := parseAllLines_error parse _ l hmem hline
    rw [run_json]
    simp only [hs, if_false]
    rw [hwhole]
    cases hpa : parseAllLines parse (jsonLinesOf (rustTrim stdout)) with
    | ok items => rw [hpa] at herr; simp [isErrB] at herr
    | error e => rfl

/-- Witness for claim C9: with a parser that accepts nothing, a one-line
output makes the receive call return an error. -/
theorem c9_witness :
    c9parse (rustTrim ['x']) = none ∧
    ['x'] ∈ jsonLinesOf (rustTrim ['x']) ∧
    c9parse ['x'] = none ∧
    isErrB (run_json c9parse ['x']) = true :=
  ⟨rfl, by decide, rfl,
    c9_line_parse_failure_propagates c9parse ['x'] ['x'] rfl (by decide) rfl⟩

theorem mark_read_frame (app : App) :
    (mark_selected_read app).targets = app.targets ∧
    (mark_selected_read app).selected = app.selected := by
  unfold mark_selected_read
  cases h : app.targets.get? app.selected <;> simp

theorem mark_read_spec (app : App) (t : Target)
    (h : app.targets.get? app.selected = some t) :
    (mark_selected_read app).unread t.conversation_key = 0 ∧
    ∀ k, k ≠ t.conversation_key → (mark_selected_read app).unread k = app.unread k := by
  unfold mark_selected_read
  rw [h]
  exact ⟨by simp, fun k hk => by simp [hk]⟩

theorem mark_read_clears (base : App) (t : Target)
    (h : (mark_selected_read base).targets.get? (mark_selected_read base).selected = some t) :
    (mark_selected_read base).unread t.conversation_key = 0 ∧
    ∀ k, k ≠ t.conversation_key → (mark_selected_read base).unread k = base.unread k := by
  obtain ⟨hT, hS⟩ := mark_read_frame base
  rw [hT, hS] at h
  exact mark_read_spec base t h

/-- Claim C6: navigating the selection to a conversation resets that
conversation's unread count to zero and leaves the unread count of every
other conversation unchanged, for both the down and the up movement. -/
theorem c6_selection_clears_unread (app : App) (t : Target) (hne : app.targets ≠ []) :
    ((navDown app).targets.get? (navDown app).selected = some t →
      (navDown app).unread t.conversation_key = 0 ∧
      ∀ k, k ≠ t.conversation_key → (navDown app).unread k = app.unread k) ∧
    ((navUp app).targets.get? (navUp app).selected = some t →
      (navUp app).unread t.conversation_key = 0 ∧
      ∀ k, k ≠ t.conversation_key → (navUp app).unread k = app.unread k) := by
  have hemp : app.targets.isEmpty = false := by
    cases hT : app.targets with
    | nil => exact absurd hT hne
    | cons a l => rfl
  constructor
  · intro h
    unfold navDown at h ⊢
    simp only [hemp, Bool.false_eq_true, if_false] at h ⊢
    exact mark_read_clears _ t h
  · intro h
    unfold navUp at h ⊢
    simp only [hemp, Bool.false_eq_true, if_false] at h ⊢
    exact mark_read_clears _ t h

/-- Witness for claim C6: on a concrete state with three unread messages in
the only conversation, moving down clears its counter and leaves a different
key untouched. -/
theorem c6_witness :
    c6app.targets ≠ [] ∧
    (navDown c6app).targets.get? (navDown c6app).selected = some c1target ∧
    (navDown c6app).unread c1target.conversation_key = 0 ∧
    (navDown c6app).unread "group:G1" = c6app.unread "group:G1" := by
  have h := (c6_selection_clears_unread c6app c1target (by decide)).1 rfl
  exact ⟨by decide, rfl, h.1, h.2 "group:G1" (by decide)⟩

theorem hki_enter (app : App) (sendRes : Except String Unit) :
    handle_key_insert app keyEnter sendRes =
      (if trimStr app.input = "" then { app with status := "empty message; nothing sent" }
       else
         match app.targets.get? app.selected with
         | none => { app with status := "no target selected" }
         | some t =>
           match sendRes with
           | .ok _ => sendOkUpdate app t (trimStr app.input)
           | .error e => { app with status := "send error: " ++ e }) := rfl

theorem sendOkUpdate_spec (app : App) (t : Target) (body : String) :
    (sendOkUpdate app t body).messages t.conversation_key =
      app.messages t.conversation_key ++
        [{ ts_ms := none, dir := .out, who := some app.account, body := body }] ∧
    (∀ k2, k2 ≠ t.conversation_key →
      (sendOkUpdate app t body).messages k2 = app.messages k2) ∧
    (app.cfg.save_scrollback = true →
      (sendOkUpdate app t body).store t.conversation_key =
        app.store t.conversation_key ++
          [ScrollLine.json (recToJson
            { ts_ms := none, dir := "out", who := some app.account, body := body })] ∧
      ∀ k2, k2 ≠ t.conversation_key →
        (sendOkUpdate app t body).store k2 = app.store k2) ∧
    (app.cfg.save_scrollback = false → (sendOkUpdate app t body).store = app.store) := by
  unfold sendOkUpdate pushMessage appendStore
  cases hsc : app.cfg.save_scrollback with
  | true =>
    refine ⟨by simp, fun k2 hk2 => by simp [hk2], fun _ => ⟨by simp, fun k2 hk2 => by simp [hk2]⟩, fun hf => Bool.noConfusion hf⟩
  | false =>
    refine ⟨by simp, fun k2 hk2 => by simp [hk2], fun ht => Bool.noConfusion ht, fun _ => by simp⟩

/-- Claim C1: a failed send leaves the in-memory message buffers and the
scrollback store untouched; a successful send of a non-empty message to the
selected target appends the outbound message to that conversation's buffer
and, when persistence is enabled, appends the serialized record to that
conversation's scrollback file, touching no other conversation. -/
theorem c1_send_failure_no_mutation (app : App) (e : String) (t : Target) :
    ((handle_key_insert app keyEnter (.error e)).messages = app.messages ∧
     (handle_key_insert app keyEnter (.error e)).store = app.store) ∧
    (trimStr app.input ≠ "" → app.targets.get? app.selected = some t →
      ((handle_key_insert app keyEnter (.ok ())).messages t.conversation_key =
         app.messages t.conversation_key ++
           [{ ts_ms := none, dir := .out, who := some app.account, body := trimStr app.input }] ∧
       (∀ k2, k2 ≠ t.conversation_key →
         (handle_key_insert app keyEnter (.ok ())).messages k2 = app.messages k2) ∧
       (app.cfg.save_scrollback = true →
         (handle_key_insert app keyEnter (.ok ())).store t.conversation_key =
           app.store t.conversation_key ++
             [ScrollLine.json (recToJson
               { ts_ms := none, dir := "out", who := some app.account,
                 body := trimStr app.input })] ∧
         ∀ k2, k2 ≠ t.conversation_key →
           (handle_key_insert app keyEnter (.ok ())).store k2 = app.store k2) ∧
       (app.cfg.save_scrollback = false →
         (handle_key_insert app keyEnter (.ok ())).store = app.store))) := by
  constructor
  · by_cases hb : trimStr app.input = ""
    · rw [hki_enter, if_pos hb]
      exact ⟨rfl, rfl⟩
    · rw [hki_enter, if_neg hb]
      cases hsel : app.targets.get? app.selected with
      | none => exact ⟨rfl, rfl⟩
      | some t2 => exact ⟨rfl, rfl⟩
  · intro hb hsel
    rw [hki_enter, if_neg hb, hsel]
    obtain ⟨h1, h2, h3, h4⟩ := sendOkUpdate_spec app t (trimStr app.input)
    exact ⟨h1, h2, h3, h4⟩

/-- Witness for claim C1: on a concrete state with one selected target and a
pending non-empty input, a failed send leaves the buffers untouched and a
successful send appends that one message. -/
theorem c1_witness :
    trimStr c1app.input ≠ "" ∧
    c1app.targets.get? c1app.selected = some c1target ∧
    (handle_key_insert c1app keyEnter (.error "boom")).messages = c1app.messages ∧
    (handle_key_insert c1app keyEnter (.error "boom")).store = c1app.store ∧
    (handle_key_insert c1app keyEnter (.ok ())).messages c1target.conversation_key =
      c1app.messages c1target.conversation_key ++
        [{ ts_ms := none, dir := .out, who := some c1app.account, body := trimStr c1app.input }] := by
  have h := c1_send_failure_no_mutation c1app "boom" c1target
  exact ⟨by decide, rfl, h.1.1, h.1.2, (h.2 (by decide) rfl).1⟩

/-- Claim C8 (code bug): the claim promises the notified body is the message
body truncated to at most 200 characters, bodies of 200 characters or fewer
passing unmodified.  The code truncates at 200 UTF-8 bytes instead: a body
of 101 two-byte characters (101 characters, 202 bytes) is cut to 100
characters plus an ellipsis, and a body of 67 three-byte characters (201
bytes) makes String::truncate hit a non-boundary byte, which panics
(modeled as none). -/
theorem c8_truncation_at_bytes :
    notifyTrunc (List.replicate 67 '€') = none ∧
    notifyTrunc (List.replicate 101 'Ā') =
      some (List.replicate 100 'Ā' ++ ['.', '.', '.']) ∧
    notify_incoming app0 "contact:+15551230000" none
      (String.mk (List.replicate 67 '€')) = none := by
  refine ⟨by decide, by decide, ?_⟩
  rfl

/-- Claim C10: an inbound message whose conversation key carries neither the
group nor the contact marker and matches no registered target is skipped
entirely by the ingest loop: the application state it produces is the input
state, so no target, unread count, scrollback line, notification request or
buffered message is added. -/
theorem c10_sentinel_skipped (selKey : Option String) (app : App) (m : IncomingMessage)
    (hg : dropStart "group:" m.conversation_key = none)
    (hc : dropStart "contact:" m.conversation_key = none)
    (hreg : ∀ t ∈ app.targets, t.conversation_key ≠ m.conversation_key) :
    ingestOne selKey app m = some app := by
  have hany : (app.targets.any fun t => t.conversation_key == m.conversation_key) = false := by
    rw [List.any_eq_false]
    intro t ht
    simp [hreg t ht]
  rw [ingestOne, hany]
  simp only [Bool.false_eq_true, if_false]
  rw [parseKeyNs, hg, hc]

/-- Witness for claim C10: the sentinel-keyed message leaves a concrete
one-conversation state exactly as it was. -/
theorem c10_witness :
    dropStart "group:" c10msg.conversation_key = none ∧
    dropStart "contact:" c10msg.conversation_key = none ∧
    c10target.conversation_key ≠ c10msg.conversation_key ∧
    ingestOne none c10app c10msg = some c10app := by
  refine ⟨by decide, by decide, by decide, ?_⟩
  exact c10_sentinel_skipped none c10app c10msg (by decide) (by decide) (by decide)

theorem perm_ordInsert {α : Type} (le : α → α → Bool) (a : α) (l : List α) :
    List.Perm (ordInsert le a l) (a :: l) := by
  induction l with
  | nil => exact List.Perm.refl _
  | cons b l ih =>
    rw [ordInsert]
    by_cases h : le a b = true
    · rw [if_pos h]
    · rw [if_neg h]
      exact (ih.cons b).trans (List.Perm.swap a b l)

theorem perm_insSort {α : Type} (le : α → α → Bool) (l : List α) :
    List.Perm (insSort le l) l := by
  induction l with
  | nil => exact List.Perm.refl _
  | cons a l ih => exact (perm_ordInsert le a (insSort le l)).trans (ih.cons a)

theorem notify_frame (app : App) (key : String) (src : Option String) (body : String)
    (a : App) (h : notify_incoming app key src body = some a) :
    a.targets = app.targets := by
  unfold notify_incoming at h
  cases ht : notifyTrunc body.data with
  | none => rw [ht] at h; cases h
  | some l =>
    rw [ht] at h
    simp only [Option.map_some', Option.some.injEq] at h
    rw [← h]

theorem processRest_frame (selKey : Option String) (app : App) (m : IncomingMessage)
    (a : App) (h : processRest selKey app m = some a) : a.targets = app.targets := by
  unfold processRest at h
  try simp only [] at h
  split at h
  all_goals split at h
  all_goals split at h
  all_goals obtain ⟨b, hb, hab⟩ := Option.map_eq_some'.mp h
  all_goals rw [← hab]
  all_goals first
    | (have hbT := notify_frame _ _ _ _ _ hb; exact hbT)
    | (injection hb with hb2; rw [← hb2]; rfl)

theorem ingestOne_known (selKey : Option String) (app : App) (m : IncomingMessage) (a : App)
    (hknown : (app.targets.any fun t => t.conversation_key == m.conversation_key) = true)
    (h : ingestOne selKey app m = some a) : a.targets = app.targets := by
  rw [ingestOne, if_pos hknown] at h
  exact processRest_frame _ _ _ _ h

theorem ingestOne_new (selKey : Option String) (app : App) (m : IncomingMessage) (a : App)
    (info : TargetKind × String × String)
    (hunk : (app.targets.any fun t => t.conversation_key == m.conversation_key) = false)
    (hns : parseKeyNs m.conversation_key = some info)
    (h : ingestOne selKey app m = some a) :
    a.targets = app.targets ++
      [{ conversation_key := m.conversation_key, kind := info.1,
         addr := info.2.1, display := info.2.2 }] := by
  rw [ingestOne, if_neg (by rw [hunk]; exact Bool.false_ne_true)] at h
  split at h
  · rename_i heq
    rw [hns] at heq
    cases heq
  · rename_i info2 heq
    rw [hns] at heq
    injection heq with he
    subst he
    exact processRest_frame _ _ _ _ h

theorem ingestLoop_key_present (selKey : Option String) (k : String)
    (msgs : List IncomingMessage) :
    ∀ app a, (∀ m ∈ msgs, m.conversation_key = k) →
      (app.targets.any fun t => t.conversation_key == k) = true →
      ingestLoop selKey app msgs = some a → a.targets = app.targets := by
  induction msgs with
  | nil =>
    intro app a _ _ h
    rw [ingestLoop] at h
    injection h with h
    rw [← h]
  | cons m rest ih =>
    intro app a hk hany h
    rw [ingestLoop] at h
    cases hio : ingestOne selKey app m with
    | none => rw [hio] at h; cases h
    | some b =>
      simp only [hio] at h
      have hmk : m.conversation_key = k := hk m (List.mem_cons_self m rest)
      have hbt : b.targets = app.targets :=
        ingestOne_known selKey app m b (by rw [hmk]; exact hany) hio
      have hanyb : (b.targets.any fun t => t.conversation_key == k) = true := by
        rw [hbt]; exact hany
      have hrest := ih b a (fun m2 hm2 => hk m2 (List.mem_cons_of_mem m hm2)) hanyb h
      rw [hrest, hbt]

theorem finalize_targets (app : App) :
    (finalizeIngest app).targets = insSort targetLe app.targets := by
  unfold finalizeIngest
  try simp only []
  split <;> rfl

/-- Claim C5 counterexample: a batch of three messages for the sentinel key,
which is unknown to the registry, adds no target at all instead of the
exactly one the claim promises. -/
theorem c5_counterexample :
    (ingest_incoming app0 [c5xmsg, c5xmsg, c5xmsg]).map (fun a => a.targets.length) = some 0 ∧
    (ingest_incoming app0 [c5xmsg, c5xmsg, c5xmsg]).map
      (fun a => a.targets.countP fun t => t.conversation_key == "unknown:unknown") = some 0 := by
  exact ⟨rfl, rfl⟩

/-- Claim C5 as amended: for every nonempty inbound batch whose messages all
reference one conversation key that is unknown to the Conversation Registry
and carries the group or contact namespace marker, processing the batch adds
exactly one new Target for that key, regardless of how many messages in the
batch reference it (an unknown key with neither marker adds none, see the
counterexample). -/
theorem c5_one_target_per_new_key (app : App) (msgs : List IncomingMessage) (k : String)
    (a' : App)
    (hne : msgs ≠ [])
    (hkey : ∀ m ∈ msgs, m.conversation_key = k)
    (hns : (parseKeyNs k).isSome = true)
    (hunk : ∀ t ∈ app.targets, t.conversation_key ≠ k)
    (hrun : ingest_incoming app msgs = some a') :
    a'.targets.length = app.targets.length + 1 ∧
    a'.targets.countP (fun t => t.conversation_key == k) = 1 := by
  obtain ⟨info, hinfo⟩ := Option.isSome_iff_exists.mp hns
  cases msgs with
  | nil => exact absurd rfl hne
  | cons m rest =>
    unfold ingest_incoming at hrun
    obtain ⟨b, hb, hba⟩ := Option.map_eq_some'.mp hrun
    rw [ingestLoop] at hb
    have hmk : m.conversation_key = k := hkey m (List.mem_cons_self m rest)
    have hany0 : (app.targets.any fun t => t.conversation_key == m.conversation_key) = false := by
      rw [List.any_eq_false]
      intro t ht
      rw [hmk]
      simp [hunk t ht]
    cases hio : ingestOne (app.selectedTarget.map fun t => t.conversation_key) app m with
    | none => rw [hio] at hb; cases hb
    | some c =>
      simp only [hio] at hb
      have hct : c.targets = app.targets ++
          [{ conversation_key := m.conversation_key, kind := info.1,
             addr := info.2.1, display := info.2.2 }] :=
        ingestOne_new _ app m c info hany0 (by rw [hmk]; exact hinfo) hio
      have hanyc : (c.targets.any fun t => t.conversation_key == k) = true := by
        rw [hct, List.any_append]
        simp [hmk]
      have hbt : b.targets = c.targets :=
        ingestLoop_key_present _ k rest c b
          (fun m2 hm2 => hkey m2 (List.mem_cons_of_mem m hm2)) hanyc hb
      have hat : a'.targets = insSort targetLe b.targets := by
        rw [← hba]
        exact finalize_targets b
      have hperm : List.Perm a'.targets b.targets := by
        rw [hat]
        exact perm_insSort _ _
      have h0 : app.targets.countP (fun t => t.conversation_key == k) = 0 := by
        rw [List.countP_eq_zero]
        intro t ht
        simp [hunk t ht]
      constructor
      · rw [hperm.length_eq, hbt, hct, List.length_append]
        rfl
      · rw [hperm.countP_eq, hbt, hct, List.countP_append, h0]
        simp [List.countP_cons, hmk]

/-- Witness for the amended claim C5: a batch of three messages for a fresh
contact key adds exactly one target to the empty registry. -/
theorem c5_witness :
    ([c5wmsg, c5wmsg, c5wmsg] : List IncomingMessage) ≠ [] ∧
    (parseKeyNs "contact:+15551230000").isSome = true ∧
    ingest_incoming app0 [c5wmsg, c5wmsg, c5wmsg] = some c5res ∧
    c5res.targets.length = app0.targets.length + 1 ∧
    c5res.targets.countP (fun t => t.conversation_key == "contact:+15551230000") = 1 := by
  have h := c5_one_target_per_new_key app0 [c5wmsg, c5wmsg, c5wmsg] "contact:+15551230000"
    c5res (by decide) (by decide) (by decide) (by intro t ht; cases ht) rfl
  exact ⟨by decide, by decide, rfl, h.1, h.2⟩

theorem position_spec {α : Type} (p : α → Bool) (l : List α) (x : α)
    (hx : x ∈ l) (hp : p x = true) :
    ∃ i y, position p l = some i ∧ l.get? i = some y ∧ p y = true := by
  induction l with
  | nil => cases hx
  | cons a l ih =>
    by_cases ha : p a = true
    · exact ⟨0, a, by rw [position, if_pos ha], rfl, ha⟩
    · rcases List.mem_cons.mp hx with rfl | hx2
      · exact absurd hp ha
      · obtain ⟨i, y, h1, h2, h3⟩ := ih hx2
        refine ⟨i + 1, y, ?_, ?_, h3⟩
        · rw [position, if_neg ha, h1]
          rfl
        · rw [List.get?_cons_succ]
          exact h2

theorem selectByAddr_spec (app1 : App) (num : String) (x : Target)
    (hx : x ∈ app1.targets) (hpx : (x.addr == num) = true) :
    (selectByAddr app1 num).targets = app1.targets ∧
    ∃ y, (selectByAddr app1 num).targets.get? (selectByAddr app1 num).selected = some y ∧
      (y.addr == num) = true ∧ y ∈ app1.targets := by
  obtain ⟨i, y, h1, h2, h3⟩ := position_spec (fun t => t.addr == num) app1.targets x hx hpx
  unfold selectByAddr
  rw [h1]
  exact ⟨rfl, y, h2, h3, List.get?_mem h2⟩

theorem addRecipientAccept_spec (app : App) (num : String)
    (hcoll : ∀ t ∈ app.targets, t.addr = num → t.conversation_key = "contact:" ++ num)
    (hkeyaddr : ∀ t ∈ app.targets, t.conversation_key = "contact:" ++ num → t.addr = num) :
    (addRecipientAccept app num).targets.any
      (fun t => t.conversation_key == "contact:" ++ num) = true ∧
    ((addRecipientAccept app num).targets.get? (addRecipientAccept app num).selected).map
      (fun t => (t.conversation_key, t.addr)) = some ("contact:" ++ num, num) ∧
    (addRecipientAccept app num).mode = Mode.normal := by
  unfold addRecipientAccept
  try simp only []
  by_cases hex : (app.targets.any fun t => t.conversation_key == "contact:" ++ num) = true
  · rw [if_pos hex]
    obtain ⟨t0, ht0mem, ht0key⟩ := List.any_eq_true.mp hex
    have ht0key2 : t0.conversation_key = "contact:" ++ num := by simpa using ht0key
    have ht0addr : (t0.addr == num) = true := by
      simp [hkeyaddr t0 ht0mem ht0key2]
    obtain ⟨hT, y, hy, hya, hymem⟩ := selectByAddr_spec app num t0 ht0mem ht0addr
    have hyaddr : y.addr = num := by simpa using hya
    have hykey : y.conversation_key = "contact:" ++ num := hcoll y hymem hyaddr
    obtain ⟨hmT, hmS⟩ := mark_read_frame (selectByAddr app num)
    refine ⟨?_, ?_, trivial⟩
    · show (mark_selected_read (selectByAddr app num)).targets.any
        (fun t => t.conversation_key == "contact:" ++ num) = true
      rw [hmT, hT]
      exact hex
    · show ((mark_selected_read (selectByAddr app num)).targets.get?
        (mark_selected_read (selectByAddr app num)).selected).map
          (fun t => (t.conversation_key, t.addr)) = some ("contact:" ++ num, num)
      rw [hmT, hmS, hy]
      simp [hykey, hyaddr]
  · rw [if_neg hex]
    set app1 : App :=
      { app with targets := insSort targetLe (app.targets ++ [newContact num]) } with happ1
    have hperm : List.Perm app1.targets (app.targets ++ [newContact num]) := perm_insSort _ _
    have hnewmem : newContact num ∈ app1.targets := by
      rw [hperm.mem_iff]
      exact List.mem_append_right _ (List.mem_singleton.mpr rfl)
    have hnewaddr : ((newContact num).addr == num) = true := by simp [newContact]
    obtain ⟨hT, y, hy, hya, hymem⟩ := selectByAddr_spec app1 num _ hnewmem hnewaddr
    have hyaddr : y.addr = num := by simpa using hya
    have hykey : y.conversation_key = "contact:" ++ num := by
      have hy2 : y ∈ app.targets ++ [newContact num] := hperm.mem_iff.mp hymem
      rcases List.mem_append.mp hy2 with hl | hr
      · exact hcoll y hl hyaddr
      · rw [List.mem_singleton.mp hr]
        rfl
    obtain ⟨hmT, hmS⟩ := mark_read_frame (selectByAddr app1 num)
    refine ⟨?_, ?_, trivial⟩
    · show (mark_selected_read (selectByAddr app1 num)).targets.any
        (fun t => t.conversation_key == "contact:" ++ num) = true
      rw [hmT, hT]
      exact List.any_eq_true.mpr ⟨_, hnewmem, by simp [newContact]⟩
    · show ((mark_selected_read (selectByAddr app1 num)).targets.get?
        (mark_selected_read (selectByAddr app1 num)).selected).map
          (fun t => (t.conversation_key, t.addr)) = some ("contact:" ++ num, num)
      rw [hmT, hmS, hy]
      simp [hykey, hyaddr]

theorem hkar_enter (app : App) :
    handle_key_add_recipient app keyEnter =
      (if !headPlus (trimStr app.input) || utf8Len (trimStr app.input).data < 8 then
        { app with status := "recipient must look like +15551234567" }
       else addRecipientAccept app (trimStr app.input)) := rfl

/-- Claim C7 counterexample: the claim says the confirmation of an accepted
address selects the Target with key contact:<address>, but when a group
target carries the same address string and sorts first, the position lookup
selects the group target instead. -/
theorem c7_counterexample :
    headPlus (trimStr c7app.input) = true ∧
    8 ≤ utf8Len (trimStr c7app.input).data ∧
    ((handle_key_add_recipient c7app keyEnter).targets.get?
       (handle_key_add_recipient c7app keyEnter).selected).map (fun t => t.conversation_key) =
      some "group:+15551234567" ∧
    ((handle_key_add_recipient c7app keyEnter).targets.get?
       (handle_key_add_recipient c7app keyEnter).selected).map (fun t => t.conversation_key) ≠
      some ("contact:" ++ trimStr c7app.input) := by
  exact ⟨rfl, by decide, rfl, by decide⟩

/-- Claim C7 as amended: a rejected address (no leading plus sign or too
short) mutates no target, selection, unread, message or store state and only
sets the status line; an accepted address inserts or reuses a Target with
key contact:<address>, re-sorts on insert, and selects the first target in
display order whose address equals the entered address, which is a target
with key contact:<address> whenever no distinct target shares that address
string (see the counterexample for the colliding case). -/
theorem c7_add_recipient_amended (app : App) :
    ((!headPlus (trimStr app.input) || utf8Len (trimStr app.input).data < 8) = true →
      (handle_key_add_recipient app keyEnter).targets = app.targets ∧
      (handle_key_add_recipient app keyEnter).selected = app.selected ∧
      (handle_key_add_recipient app keyEnter).unread = app.unread ∧
      (handle_key_add_recipient app keyEnter).messages = app.messages ∧
      (handle_key_add_recipient app keyEnter).store = app.store ∧
      (handle_key_add_recipient app keyEnter).mode = app.mode ∧
      (handle_key_add_recipient app keyEnter).status = "recipient must look like +15551234567") ∧
    ((!headPlus (trimStr app.input) || utf8Len (trimStr app.input).data < 8) = false →
      (∀ t ∈ app.targets, t.addr = trimStr app.input →
        t.conversation_key = "contact:" ++ trimStr app.input) →
      (∀ t ∈ app.targets, t.conversation_key = "contact:" ++ trimStr app.input →
        t.addr = trimStr app.input) →
      ((handle_key_add_recipient app keyEnter).targets.any
        (fun t => t.conversation_key == "contact:" ++ trimStr app.input) = true ∧
       ((handle_key_add_recipient app keyEnter).targets.get?
          (handle_key_add_recipient app keyEnter).selected).map
         (fun t => (t.conversation_key, t.addr)) =
         some ("contact:" ++ trimStr app.input, trimStr app.input) ∧
       (handle_key_add_recipient app keyEnter).mode = Mode.normal)) := by
  constructor
  · intro hrej
    rw [hkar_enter, if_pos hrej]
    exact ⟨rfl, rfl, rfl, rfl, rfl, rfl, rfl⟩
  · intro hacc hcoll hkeyaddr
    rw [hkar_enter, if_neg (by rw [hacc]; exact Bool.false_ne_true)]
    exact addRecipientAccept_spec app (trimStr app.input) hcoll hkeyaddr

/-- Witness for the amended claim C7: the concrete address 5551234567 is
rejected with no state change, and +15551234567 is accepted, inserted and
selected on a fresh state. -/
theorem c7_witness :
    (!headPlus (trimStr c7rapp.input) || utf8Len (trimStr c7rapp.input).data < 8) = true ∧
    (handle_key_add_recipient c7rapp keyEnter).targets = c7rapp.targets ∧
    (handle_key_add_recipient c7rapp keyEnter).status = "recipient must look like +15551234567" ∧
    (!headPlus (trimStr c7wapp.input) || utf8Len (trimStr c7wapp.input).data < 8) = false ∧
    ((handle_key_add_recipient c7wapp keyEnter).targets.get?
       (handle_key_add_recipient c7wapp keyEnter).selected).map
      (fun t => (t.conversation_key, t.addr)) =
      some ("contact:" ++ trimStr c7wapp.input, trimStr c7wapp.input) ∧
    (handle_key_add_recipient c7wapp keyEnter).mode = Mode.normal := by
  have hr := (c7_add_recipient_amended c7rapp).1 (by decide)
  have ha := (c7_add_recipient_amended c7wapp).2 (by decide)
    (by intro t ht; cases ht) (by intro t ht; cases ht)
  exact ⟨by decide, hr.1, hr.2.2.2.2.2.2, by decide, ha.2.1, ha.2.2⟩
